import Mathlib

/-!
Shallow embedding of the n8n-openapi-node schema-to-field compiler
(src/n8n/SchemaToINodeProperties.ts) and the field-sorting part of the
parser (sessionFirst / Parser.parseFields), together with the reference
resolver and example extractor modelled from the specification.
-/

namespace N8N

/-- JSON-like runtime values (the JavaScript values flowing through the
compiler: schema examples, field defaults).  `undefined` is represented
at use sites by `Option Value`. -/
inductive Value where
  | vNull
  | vBool (b : Bool)
  | vNum (n : Int)
  | vStr (s : String)
  | vArr (items : List Value)
  | vObj (fields : List (String × Value))
deriving Repr

/-- JavaScript truthiness of a defined value (`undefined` is handled at
the `Option` level by callers). -/
def truthy : Value → Bool
  | .vNull => false
  | .vBool b => b
  | .vNum n => n != 0
  | .vStr s => s != ""
  | .vArr _ => true
  | .vObj _ => true

/-- The closed set of OpenAPI schema `type` tags handled by the compiler. -/
inductive SchType where
  | boolean
  | string
  | number
  | integer
  | object
  | array
deriving DecidableEq, Repr

/-- A node that is either an inline object or a `$ref` pointer naming a
component-registry entry. -/
inductive RefOr (α : Type) where
  | ref (name : String)
  | obj (val : α)

/-- OpenAPI SchemaObject restricted to the fields the compiler reads:
`type`, `enum`, `items`, `properties`, `required`, `description`,
`example`, `format`.  An absent `enum` and an empty `enum` behave
identically in the source (`schema.enum && schema.enum.length > 0`), so
both are the empty list. -/
inductive SchemaObj where
  | mk (type : Option SchType)
       (enum : List String)
       (items : Option (RefOr SchemaObj))
       (properties : Option (List (String × RefOr SchemaObj)))
       (required : Option (List String))
       (description : Option String)
       («example» : Option Value)
       (format : Option String)

def SchemaObj.type : SchemaObj → Option SchType
  | .mk t _ _ _ _ _ _ _ => t

def SchemaObj.enum : SchemaObj → List String
  | .mk _ e _ _ _ _ _ _ => e

def SchemaObj.items : SchemaObj → Option (RefOr SchemaObj)
  | .mk _ _ i _ _ _ _ _ => i

def SchemaObj.properties : SchemaObj → Option (List (String × RefOr SchemaObj))
  | .mk _ _ _ p _ _ _ _ => p

def SchemaObj.required : SchemaObj → Option (List String)
  | .mk _ _ _ _ r _ _ _ => r

def SchemaObj.description : SchemaObj → Option String
  | .mk _ _ _ _ _ d _ _ => d

def SchemaObj.«example» : SchemaObj → Option Value
  | .mk _ _ _ _ _ _ e _ => e

def SchemaObj.format : SchemaObj → Option String
  | .mk _ _ _ _ _ _ _ f => f

/-- An OpenAPI ParameterObject restricted to the fields the compiler
reads. -/
structure ParameterObj where
  name : String
  «in» : String
  required : Option Bool
  description : Option String
  «example» : Option Value
  schema : RefOr SchemaObj

/-- An OpenAPI MediaTypeObject: the schema under one content-type label. -/
structure MediaTypeObj where
  schema : RefOr SchemaObj

/-- An OpenAPI RequestBodyObject: a mapping from content-type label to
media object, in declaration order. -/
structure RequestBodyObj where
  content : List (String × MediaTypeObj)

/-- The document's component registries used for pointer resolution. -/
structure Doc where
  schemas : List (String × SchemaObj)
  parameters : List (String × ParameterObj)
  requestBodies : List (String × RequestBodyObj)

/-- First-match lookup in a component registry (JavaScript objects carry
at most one entry per key). -/
def lookupComp {α : Type} (reg : List (String × α)) (name : String) : Option α :=
  (reg.find? (fun kv => kv.1 == name)).map (fun kv => kv.2)

/-- Error taxonomy of the compiler (spec section 7); the source throws
`Error` with a message at each corresponding site. -/
inductive Err where
  | BrokenReference
  | UnsupportedParameterLocation (loc : String)
  | UnsupportedBodyContentType
  | UnsupportedBodySchema (t : Option SchType)
  | MultipartSchemaMissingProperties
deriving DecidableEq, Repr

/-- Modelled from the spec: ReferenceResolver (section 4.1; the file
src/openapi/RefResolver.ts is not under src/).  One indirection per
call: an inline node is returned unchanged, a pointer is looked up in
the schema registry, a dangling pointer is `BrokenReference`. -/
def resolveSchema (d : Doc) : RefOr SchemaObj → Except Err SchemaObj
  | .obj s => .ok s
  | .ref name =>
    match lookupComp d.schemas name with
    | some s => .ok s
    | none => .error .BrokenReference

/-- Modelled from the spec: ReferenceResolver, parameter registry. -/
def resolveParameter (d : Doc) : RefOr ParameterObj → Except Err ParameterObj
  | .obj p => .ok p
  | .ref name =>
    match lookupComp d.parameters name with
    | some p => .ok p
    | none => .error .BrokenReference

/-- Modelled from the spec: ReferenceResolver, request-body registry. -/
def resolveRequestBody (d : Doc) : RefOr RequestBodyObj → Except Err RequestBodyObj
  | .obj b => .ok b
  | .ref name =>
    match lookupComp d.requestBodies name with
    | some b => .ok b
    | none => .error .BrokenReference

/-- Modelled from the spec: the contribution of one property to a
synthesized object example is that property's own declared example
(reference resolution is bounded to one hop by spec section 3). -/
def propExample (d : Doc) : RefOr SchemaObj → Option Value
  | .obj s => s.example
  | .ref name => (lookupComp d.schemas name).bind (fun s => s.example)

/-- Modelled from the spec: ExampleExtractor (section 4.2; the file
src/openapi/SchemaExample.ts is not under src/).  The schema's own
declared example when present; otherwise, for a schema declaring
properties, an object synthesized from each property's own example,
omitting properties lacking one; otherwise no example. -/
def extractExample (d : Doc) (s : SchemaObj) : Option Value :=
  match s.example with
  | some v => some v
  | none =>
    match s.properties with
    | some props =>
      some (.vObj (props.filterMap
        (fun kp => (propExample d kp.2).map (fun v => (kp.1, v)))))
    | none => none

/-- Char-list substring test: does `s` contain `pat` as a contiguous
run?  Used to model the JavaScript `regexp.test` of the unanchored
pattern searching for the literal text "application/json" (the trailing
`.*` of the source pattern matches anything). -/
def charsContain (pat : List Char) : List Char → Bool
  | [] => pat.isEmpty
  | c :: t => pat.isPrefixOf (c :: t) || charsContain pat t

/-- Content-type label test used by `findKey` in the source: the
unanchored regular expression `application\/json.*` accepts any label
containing "application/json". -/
def containsAppJson (s : String) : Bool :=
  charsContain "application/json".toList s.toList

/-- Word splitter underlying the model of `lodash.startCase`: splits a
character stream at non-alphanumeric characters and at lower-to-upper
camel-case boundaries.  The first argument accumulates the current word
reversed. -/
def splitWordsGo (cur : List Char) : List Char → List (List Char)
  | [] => if cur.isEmpty then [] else [cur.reverse]
  | c :: t =>
    if ¬ c.isAlphanum then
      (if cur.isEmpty then [] else [cur.reverse]) ++ splitWordsGo [] t
    else if c.isUpper && (match cur with | p :: _ => p.isLower | [] => false) then
      cur.reverse :: splitWordsGo [c] t
    else
      splitWordsGo (c :: cur) t

/-- Upper-case the first character of a word. -/
def capitalizeWord : List Char → List Char
  | [] => []
  | c :: t => c.toUpper :: t

/-- Model of `lodash.startCase` (external library, not repository code):
split into words at separators and camel-case boundaries, capitalize
each word, join with single spaces. -/
def startCase (s : String) : String :=
  String.intercalate " "
    ((splitWordsGo [] s.toList).map (fun w => String.mk (capitalizeWord w)))

/-- Escape one character for a JSON string literal (quote and backslash;
written via code points 34 and 92). -/
def escChar (c : Char) : List Char :=
  if c = Char.ofNat 34 ∨ c = Char.ofNat 92 then [Char.ofNat 92, c] else [c]

/-- Escape a string for embedding in JSON output. -/
def escapeJson (s : String) : String :=
  String.mk (s.toList.map escChar).flatten

mutual
/-- Model of the JavaScript `JSON.stringify` builtin as used by the
source (`JSON.stringify(value, null, 2)`); the pretty-printing
whitespace of the 2-space indentation is not reproduced, the serialized
structure is.  Only reached when a schema carries an example. -/
def jsonStringify : Value → String
  | .vNull => "null"
  | .vBool b => if b then "true" else "false"
  | .vNum n => toString n
  | .vStr s => "\x22" ++ escapeJson s ++ "\x22"
  | .vArr items => "[" ++ jsonArr items ++ "]"
  | .vObj fs => "\x7b" ++ jsonObj fs ++ "\x7d"

/-- Serialize the comma-separated elements of a JSON array. -/
def jsonArr : List Value → String
  | [] => ""
  | [v] => jsonStringify v
  | v :: rest => jsonStringify v ++ "," ++ jsonArr rest

/-- Serialize the comma-separated members of a JSON object. -/
def jsonObj : List (String × Value) → String
  | [] => ""
  | [(k, v)] => "\x22" ++ escapeJson k ++ "\x22:" ++ jsonStringify v
  | (k, v) :: rest =>
    "\x22" ++ escapeJson k ++ "\x22:" ++ jsonStringify v ++ "," ++ jsonObj rest
end

/-- The n8n property value kinds produced by the compiler
(`NodePropertyTypes` restricted to the emitted ones). -/
inductive PropType where
  | boolean
  | string
  | number
  | json
  | options
deriving DecidableEq, Repr

/-- A routing directive as built by the source: a request override under
`qs`, `headers`, or `body` (keyed by a name, or the whole body), with
its value-extraction expression string. -/
inductive Routing where
  | request_qs (name : String) (expr : String)
  | request_headers (name : String) (expr : String)
  | request_bodyKey (key : String) (expr : String)
  | request_bodyWhole (expr : String)
deriving DecidableEq, Repr

/-- The keys of `INodeProperties` produced by `fromSchema`
(`FromSchemaNodeProperty = Pick<INodeProperties, type|default|description|options>`).
An option entry is its label (`name`) paired with its raw `value`. -/
structure FromSchemaNodeProperty where
  type : PropType
  default : Option Value
  description : Option String
  options : Option (List (String × String))

/-- The slice of `INodeProperties` the compiler writes.  `required`
false stands for the key being absent (the source deletes falsy
`required`); `typeOptionsIsFilePath` models `typeOptions.isFilePath`;
`displayOptions` models `displayOptions.show` as the
(resource, operation) pair attached by `parseFields`. -/
structure Field where
  displayName : String
  name : String
  type : PropType
  default : Option Value
  description : Option String
  options : Option (List (String × String))
  required : Bool
  routing : Option Routing
  typeOptionsIsFilePath : Bool
  displayOptions : Option (String × String)

/-- Translation of `N8NINodeProperties.fromSchema`: resolve the schema,
take the extracted example as tentative default, switch on the type tag
filling the kind defaults, then rewrite to an options field when the
enum is non-empty (the enum default keeps a truthy prior default, JS
`field.default ? field.default : schema.enum[0]`). -/
def fromSchema (d : Doc) (schema : RefOr SchemaObj) : Except Err FromSchemaNodeProperty := do
  let s ← resolveSchema d schema
  let ex := extractExample d s
  let (ty, dv) : PropType × Option Value :=
    match s.type with
    | some .boolean => (.boolean, some (ex.getD (.vBool true)))
    | some .string => (.string, some (ex.getD (.vStr "")))
    | none => (.string, some (ex.getD (.vStr "")))
    | some .object =>
      (.json, some (match ex with
        | some v => .vStr (jsonStringify v)
        | none => .vStr "\x7b\x7d"))
    | some .array =>
      (.json, some (match ex with
        | some v => .vStr (jsonStringify v)
        | none => .vStr "[]"))
    | some .number => (.number, some (ex.getD (.vNum 0)))
    | some .integer => (.number, some (ex.getD (.vNum 0)))
  match s.enum with
  | [] => return { type := ty, default := dv, description := s.description, options := none }
  | v :: vs =>
    return {
      type := .options,
      default :=
        (match dv with
        | some dvv => if truthy dvv then some dvv else some (.vStr v)
        | none => some (.vStr v)),
      description := s.description,
      options := some ((v :: vs).map (fun x => (startCase x, x))) }

/-- Translation of `N8NINodeProperties.fromParameter`: resolve the
parameter, compile its schema, combine (lodash.defaults: a parameter
key wins when defined, the schema key fills an undefined one; falsy
`required` is the absent flag), then attach routing per location.  A
path parameter gets no per-field request override — its substitution is
performed by the operation URL rewrite `replaceToParameter` — and is
forced required.  An unknown location throws. -/
def fromParameter (d : Doc) (parameter : RefOr ParameterObj) : Except Err Field := do
  let p ← resolveParameter d parameter
  let fp ← fromSchema d p.schema
  let f0 : Field := {
    displayName := startCase p.name,
    name := p.name,
    type := fp.type,
    default := (p.example <|> fp.default),
    description := (p.description <|> fp.description),
    options := fp.options,
    required := p.required.getD false,
    routing := none,
    typeOptionsIsFilePath := false,
    displayOptions := none }
  if p.«in» = "query" then
    pure { f0 with routing := some (.request_qs p.name "=\x7b\x7b $value \x7d\x7d") }
  else if p.«in» = "path" then
    pure { f0 with required := true }
  else if p.«in» = "header" then
    pure { f0 with routing := some (.request_headers p.name "=\x7b\x7b $value \x7d\x7d") }
  else
    .error (.UnsupportedParameterLocation p.«in»)

/-- Error-propagating traversal mirroring the source's push loops: the
first failing element aborts the whole list. -/
def mapExcept (f : α → Except Err β) : List α → Except Err (List β)
  | [] => .ok []
  | x :: xs => do
    let y ← f x
    let ys ← mapExcept f xs
    return y :: ys

/-- Translation of `N8NINodeProperties.fromParameters`: absent list
gives no fields, otherwise each parameter is compiled in order. -/
def fromParameters (d : Doc) : Option (List (RefOr ParameterObj)) → Except Err (List Field)
  | none => .ok []
  | some parameters => mapExcept (fromParameter d) parameters

/-- Translation of `N8NINodeProperties.fromSchemaProperty`: compile the
property schema and combine with the display name and key; no required
flag and no routing yet. -/
def fromSchemaProperty (d : Doc) (name : String) (property : RefOr SchemaObj) : Except Err Field := do
  let fp ← fromSchema d property
  return {
    displayName := startCase name,
    name := name,
    type := fp.type,
    default := fp.default,
    description := fp.description,
    options := fp.options,
    required := false,
    routing := none,
    typeOptionsIsFilePath := false,
    displayOptions := none }

/-- Translation of `findKey(body.content, /application\/json.*/)`: the
first content entry whose label matches the pattern. -/
def findKey (content : List (String × MediaTypeObj)) : Option MediaTypeObj :=
  (content.find? (fun kv => containsAppJson kv.1)).map (fun kv => kv.2)

/-- One iteration of the JSON-body property loop of `fromRequestBody`:
required from membership in the schema's required-name list
(`schema.required && schema.required?.includes(key)`), body routing
keyed by the property name, parse-as-JSON extraction for json-typed
fields and verbatim extraction otherwise. -/
def bodyPropField (d : Doc) (required? : Option (List String)) (kp : String × RefOr SchemaObj) : Except Err Field := do
  let f ← fromSchemaProperty d kp.1 kp.2
  let req := match required? with
    | none => false
    | some l => l.contains kp.1
  let routing :=
    if f.type = .json then
      Routing.request_bodyKey kp.1 "=\x7b\x7b JSON.parse($value) \x7d\x7d"
    else
      Routing.request_bodyKey kp.1 "=\x7b\x7b $value \x7d\x7d"
  return { f with required := req, routing := some routing }

/-- Translation of the JSON branch of `fromRequestBody` (the part after
content-type selection): resolve the content schema, reject a schema
that neither declares properties nor is object/array typed, emit the
single whole-body field for an array schema with items
(required iff the schema carries a required marker, JS `!!schema.required`),
then one field per declared property. -/
def fromBodyJsonContent (d : Doc) (content : MediaTypeObj) : Except Err (List Field) := do
  let schema ← resolveSchema d content.schema
  if schema.properties.isNone && schema.type != some SchType.object
      && schema.type != some SchType.array then
    .error (.UnsupportedBodySchema schema.type)
  else do
  let arrayFields ←
    match schema.type, schema.items with
    | some .array, some items => do
      let innerSchema ← resolveSchema d items
      let f ← fromSchemaProperty d "body" (.obj innerSchema)
      pure [{ f with
        required := schema.required.isSome,
        routing := some (.request_bodyWhole "=\x7b\x7b JSON.parse($value) \x7d\x7d") }]
    | _, _ => pure ([] : List Field)
  let propFields ← mapExcept (bodyPropField d schema.required) (schema.properties.getD [])
  return arrayFields ++ propFields

/-- One iteration of the multipart property loop: resolve the property,
compile it, required from membership (`schema.required?.includes(key)`),
then binary-format properties become file-path string fields routed with
the binary-payload expression, all others get verbatim body routing. -/
def multipartPropField (d : Doc) (required? : Option (List String)) (kp : String × RefOr SchemaObj) : Except Err Field := do
  let resolvedProperty ← resolveSchema d kp.2
  let f ← fromSchemaProperty d kp.1 (.obj resolvedProperty)
  let req := match required? with
    | none => false
    | some l => l.contains kp.1
  if resolvedProperty.format == some "binary" then
    return { f with
      required := req,
      type := .string,
      typeOptionsIsFilePath := true,
      routing := some (.request_bodyKey kp.1 "=\x7b\x7b $binary[$value] \x7d\x7d") }
  else
    return { f with
      required := req,
      routing := some (.request_bodyKey kp.1 "=\x7b\x7b $value \x7d\x7d") }

/-- Translation of `N8NINodeProperties.fromMultipartFormData`: the
schema must declare properties, then one field per property. -/
def fromMultipartFormData (d : Doc) (content : MediaTypeObj) : Except Err (List Field) := do
  let schema ← resolveSchema d content.schema
  match schema.properties with
  | none => .error .MultipartSchemaMissingProperties
  | some properties => mapExcept (multipartPropField d schema.required) properties

/-- Translation of `N8NINodeProperties.fromRequestBody`: absent body
gives no fields; otherwise resolve it, take the multipart/form-data
content when present, else the first application/json-family content,
else fail. -/
def fromRequestBody (d : Doc) (body : Option (RefOr RequestBodyObj)) : Except Err (List Field) :=
  match body with
  | none => .ok []
  | some b => do
    let body ← resolveRequestBody d b
    match (body.content.find? (fun kv => kv.1 == "multipart/form-data")).map (fun kv => kv.2) with
    | some multipartContent => fromMultipartFormData d multipartContent
    | none =>
      match findKey body.content with
      | none => .error .UnsupportedBodyContentType
      | some content => fromBodyJsonContent d content

/-- Translation of the comparator `sessionFirst` of the parser. -/
def sessionFirst (a b : Field) : Int :=
  if a.name == "session" then -1
  else if b.name == "session" then 1
  else 0

/-- Insertion step of a stable comparison sort: `x` moves past exactly
those already-placed elements that the comparator orders strictly
before it. -/
def insertCmp (cmp : Field → Field → Int) (x : Field) : List Field → List Field
  | [] => [x]
  | y :: ys => if cmp x y > 0 then y :: insertCmp cmp x ys else x :: y :: ys

/-- Model of `Array.prototype.sort(cmp)` as used by `parseFields`: a
stable comparison sort (insertion sort; ECMAScript requires a stable
sort, and leaves the order implementation-defined for an inconsistent
comparator such as `sessionFirst` on two "session" fields — this is one
conforming stable realization). -/
def sortCmp (cmp : Field → Field → Int) : List Field → List Field
  | [] => []
  | x :: xs => insertCmp cmp x (sortCmp cmp xs)

/-- The slice of an OpenAPI OperationObject read by `parseFields`. -/
structure OperationObj where
  parameters : Option (List (RefOr ParameterObj))
  requestBody : Option (RefOr RequestBodyObj)

/-- Translation of `Parser.parseFields`: parameter fields, then body
fields; attach the (resource, operation) display grouping to every
field; sort so "session" comes first. -/
def parseFields (d : Doc) (resourceName operationName : String) (operation : OperationObj) : Except Err (List Field) := do
  let parameterFields ← fromParameters d operation.parameters
  let bodyFields ← fromRequestBody d operation.requestBody
  let fields := (parameterFields ++ bodyFields).map
    (fun f => { f with displayOptions := some (resourceName, operationName) })
  return sortCmp sessionFirst fields

/-- Spec-side definition (section 4.3 type-mapping table, left column →
field kind): boolean → boolean; string or unspecified → string;
object, array → structured text (json); number, integer → number. -/
def specFieldKind : Option SchType → PropType
  | some .boolean => .boolean
  | some .string => .string
  | none => .string
  | some .object => .json
  | some .array => .json
  | some .number => .number
  | some .integer => .number

/-- Spec-side definition (section 4.3 type-mapping table, right column:
the default when no example is given). -/
def specFieldDefault : Option SchType → Value
  | some .boolean => .vBool true
  | some .string => .vStr ""
  | none => .vStr ""
  | some .object => .vStr "\x7b\x7d"
  | some .array => .vStr "[]"
  | some .number => .vNum 0
  | some .integer => .vNum 0

/-- The empty document: no component registries. -/
def d0 : Doc := ⟨[], [], []⟩

/-- A plain string schema. -/
def sStr : SchemaObj := .mk (some .string) [] none none none none none none

/-- A plain boolean schema. -/
def sBool : SchemaObj := .mk (some .boolean) [] none none none none none none

/-- C1: for a resolved schema carrying no example (and no enumeration,
which the table's last row would turn into an options field),
`fromSchema` emits exactly the kind and default of the spec's
type-mapping table: boolean gives a boolean field defaulting to true,
string or unspecified gives a string field defaulting to "", object
gives a json field defaulting to "\x7b\x7d", array gives a json field
defaulting to "[]", number or integer gives a number field defaulting
to 0; the description is passed through and no options are attached. -/
theorem claim_C1 (d : Doc) (s : SchemaObj)
    (hEx : extractExample d s = none) (hEnum : s.enum = []) :
    fromSchema d (.obj s) = .ok {
      type := specFieldKind s.type,
      default := some (specFieldDefault s.type),
      description := s.description,
      options := none } := by
  obtain ⟨t, en, it, props, req, desc, ex, fmt⟩ := s
  simp only [SchemaObj.enum] at hEnum
  subst hEnum
  rcases t with _ | t
  · simp [fromSchema, resolveSchema, hEx, specFieldKind, specFieldDefault,
      SchemaObj.type, SchemaObj.enum, SchemaObj.description,
      bind, Except.bind, pure, Except.pure]
  · cases t <;>
      simp [fromSchema, resolveSchema, hEx, specFieldKind, specFieldDefault,
        SchemaObj.type, SchemaObj.enum, SchemaObj.description,
        bind, Except.bind, pure, Except.pure]

/-- Witness for C1 at a concrete boolean schema with no example. -/
theorem claim_C1_witness :
    fromSchema d0 (.obj sBool) = .ok {
      type := .boolean,
      default := some (.vBool true),
      description := none,
      options := none } :=
  claim_C1 d0 sBool rfl rfl

/-- A boolean-typed schema carrying the enumeration ["yes"] and no
example: the kind default `true` is truthy, so the source keeps it. -/
def sEnumBool : SchemaObj := .mk (some .boolean) ["yes"] none none none none none none

/-- C2 counterexample: on a boolean-typed schema enumerating ["yes"]
with no example, the emitted options field's default is the kind
default `true`, not the first enumerated value "yes" — the JS
truthiness test `field.default ? field.default : schema.enum[0]` keeps
a truthy kind default, refuting the claim that the default always
equals the first enumerated value when no example overrides it. -/
theorem claim_C2_cex :
    fromSchema d0 (.obj sEnumBool) = .ok {
      type := .options,
      default := some (.vBool true),
      description := none,
      options := some [("Yes", "yes")] }
    ∧ (Value.vBool true) ≠ (Value.vStr "yes") :=
  ⟨rfl, fun h => Value.noConfusion h⟩

/-- C2 (amended): for a schema with a non-empty enumeration and no
example, `fromSchema` emits an options field whose option list has
exactly the enumeration's values in source order and count, each label
the casing transform of the raw value and each underlying value the raw
value unchanged; the default equals the first enumerated value exactly
when the kind-based default is JS-falsy (string, unspecified, number,
integer kinds), while a truthy kind default (boolean: true, object:
"\x7b\x7d", array: "[]") is kept. -/
theorem claim_C2 (d : Doc) (s : SchemaObj) (v : String) (vs : List String)
    (hEnum : s.enum = v :: vs) (hEx : extractExample d s = none) :
    fromSchema d (.obj s) = .ok {
      type := .options,
      default := some (if truthy (specFieldDefault s.type) then specFieldDefault s.type
        else .vStr v),
      description := s.description,
      options := some ((v :: vs).map (fun x => (startCase x, x))) } := by
  obtain ⟨t, en, it, props, req, desc, ex, fmt⟩ := s
  simp only [SchemaObj.enum] at hEnum
  subst hEnum
  rcases t with _ | t
  · simp [fromSchema, resolveSchema, hEx, specFieldDefault, truthy,
      SchemaObj.type, SchemaObj.enum, SchemaObj.description,
      bind, Except.bind, pure, Except.pure]
  · cases t <;>
      simp [fromSchema, resolveSchema, hEx, specFieldDefault, truthy,
        SchemaObj.type, SchemaObj.enum, SchemaObj.description,
        bind, Except.bind, pure, Except.pure]

/-- A string-typed schema enumerating ["a", "b"] with no example. -/
def sEnumStr : SchemaObj := .mk (some .string) ["a", "b"] none none none none none none

/-- Witness for C2 at a concrete string-typed enumeration: options in
source order with cased labels and raw values, default the first
enumerated value. -/
theorem claim_C2_witness :
    fromSchema d0 (.obj sEnumStr) = .ok {
      type := .options,
      default := some (.vStr "a"),
      description := none,
      options := some [("A", "a"), ("B", "b")] } :=
  claim_C2 d0 sEnumStr "a" ["b"] rfl rfl

/-- The overlay of parameter-level keys over schema-level keys described
by the spec for `fromParameter`: display name is the cased parameter
name, the key is the parameter name, the required flag is the declared
one, and the parameter-level description and default (its example) win
over the schema-level ones, which apply only when the parameter
supplies none. -/
def overlayField (p : ParameterObj) (fp : FromSchemaNodeProperty) : Field := {
  displayName := startCase p.name,
  name := p.name,
  type := fp.type,
  default := (p.example <|> fp.default),
  description := (p.description <|> fp.description),
  options := fp.options,
  required := p.required.getD false,
  routing := none,
  typeOptionsIsFilePath := false,
  displayOptions := none }

/-- C3: `fromParameter` resolves the parameter, compiles its schema via
the type-mapping table, overlays the parameter-level display name,
required flag, description and default (the schema default applying
only when the parameter supplies none), and attaches routing by
location: "query" gives a query-parameter directive with the verbatim
value expression, "path" performs its substitution through the
operation's URI template (no per-field request override is attached)
and forces required, "header" gives a header directive with the
verbatim value expression, and any other location fails with
`UnsupportedParameterLocation`. -/
theorem claim_C3 (d : Doc) (p : ParameterObj) (fp : FromSchemaNodeProperty)
    (hfs : fromSchema d p.schema = .ok fp) :
    (p.«in» = "query" → fromParameter d (.obj p) = .ok
      { overlayField p fp with
        routing := some (.request_qs p.name "=\x7b\x7b $value \x7d\x7d") }) ∧
    (p.«in» = "path" → fromParameter d (.obj p) = .ok
      { overlayField p fp with required := true }) ∧
    (p.«in» = "header" → fromParameter d (.obj p) = .ok
      { overlayField p fp with
        routing := some (.request_headers p.name "=\x7b\x7b $value \x7d\x7d") }) ∧
    (p.«in» ≠ "query" → p.«in» ≠ "path" → p.«in» ≠ "header" →
      fromParameter d (.obj p) = .error (.UnsupportedParameterLocation p.«in»)) := by
  refine ⟨fun hq => ?_, fun hp => ?_, fun hh => ?_, fun hq hp hh => ?_⟩ <;>
    simp [fromParameter, resolveParameter, overlayField, hfs, *,
      bind, Except.bind, pure, Except.pure, throw, throwThe, MonadExcept.throw]

/-- A header parameter declaring an example and a description, over a
string schema. -/
def pHeaderW : ParameterObj :=
  ⟨"token", "header", some true, some "auth token", some (.vStr "t0"), .obj sStr⟩

/-- Witness for C3 at a concrete header parameter: the parameter-level
description and example win over the schema-level ones, and a header
routing directive with the verbatim value expression is attached. -/
theorem claim_C3_witness :
    fromParameter d0 (.obj pHeaderW) = .ok {
      displayName := "Token",
      name := "token",
      type := .string,
      default := some (.vStr "t0"),
      description := some "auth token",
      options := none,
      required := true,
      routing := some (.request_headers "token" "=\x7b\x7b $value \x7d\x7d"),
      typeOptionsIsFilePath := false,
      displayOptions := none } :=
  (claim_C3 d0 pHeaderW ⟨.string, some (.vStr ""), none, none⟩ rfl).2.2.1 rfl

/-- C4: a path-location parameter is emitted with required = true no
matter what requiredness the source document declares. -/
theorem claim_C4 (d : Doc) (p : ParameterObj) (hloc : p.«in» = "path")
    (f : Field) (hok : fromParameter d (.obj p) = .ok f) :
    f.required = true := by
  cases hfs : fromSchema d p.schema with
  | error e =>
    simp [fromParameter, resolveParameter, hfs, bind, Except.bind] at hok
  | ok fp =>
    simp [fromParameter, resolveParameter, hfs, hloc,
      bind, Except.bind, pure, Except.pure] at hok
    subst hok
    rfl

/-- A path parameter whose source document declares required = false. -/
def pPathW : ParameterObj := ⟨"id", "path", some false, none, none, .obj sStr⟩

/-- Witness for C4: a concrete path parameter declared not-required is
nevertheless emitted with required = true. -/
theorem claim_C4_witness :
    pPathW.required = some false ∧
    (∀ f, fromParameter d0 (.obj pPathW) = .ok f → f.required = true) :=
  ⟨rfl, fun f hf => claim_C4 d0 pPathW rfl f hf⟩

/-- C5: `fromRequestBody` selects exactly one content type: the
multipart/form-data content when present is delegated to the multipart
branch; otherwise the first content entry whose label matches the
application/json family is compiled by the JSON branch; when neither
exists it fails with `UnsupportedBodyContentType` instead of silently
emitting no fields. -/
theorem claim_C5 (d : Doc) (b : RequestBodyObj) :
    (∀ kv, b.content.find? (fun kv => kv.1 == "multipart/form-data") = some kv →
      fromRequestBody d (some (.obj b)) = fromMultipartFormData d kv.2) ∧
    (b.content.find? (fun kv => kv.1 == "multipart/form-data") = none →
      ∀ m, findKey b.content = some m →
        fromRequestBody d (some (.obj b)) = fromBodyJsonContent d m) ∧
    (b.content.find? (fun kv => kv.1 == "multipart/form-data") = none →
      findKey b.content = none →
      fromRequestBody d (some (.obj b)) = .error .UnsupportedBodyContentType) := by
  refine ⟨fun kv hmp => ?_, fun hmp m hj => ?_, fun hmp hj => ?_⟩ <;>
    simp [fromRequestBody, resolveRequestBody, hmp, *,
      bind, Except.bind, pure, Except.pure]

/-- A request body declaring only a text/plain content. -/
def bodyPlain : RequestBodyObj := ⟨[("text/plain", ⟨.obj sStr⟩)]⟩

/-- Witness for C5: a body declaring neither multipart/form-data nor an
application/json-family content fails with the content-type error. -/
theorem claim_C5_witness :
    fromRequestBody d0 (some (.obj bodyPlain)) = .error .UnsupportedBodyContentType :=
  (claim_C5 d0 bodyPlain).2.2 rfl rfl

/-- C10: a selected JSON content schema typed array but declaring
neither an items entry nor properties passes the supported-shape check
(its type is array), skips the array branch (no items) and the property
loop (no properties), so `fromRequestBody` returns the empty field list
without raising any error. -/
theorem claim_C10 (d : Doc) (b : RequestBodyObj) (m : MediaTypeObj) (schema : SchemaObj)
    (hmp : b.content.find? (fun kv => kv.1 == "multipart/form-data") = none)
    (hjson : findKey b.content = some m)
    (hschema : resolveSchema d m.schema = .ok schema)
    (htype : schema.type = some .array)
    (hitems : schema.items = none)
    (hprops : schema.properties = none) :
    fromRequestBody d (some (.obj b)) = .ok [] := by
  obtain ⟨t, en, it, props, req, desc, ex, fmt⟩ := schema
  simp only [SchemaObj.type] at htype
  simp only [SchemaObj.items] at hitems
  simp only [SchemaObj.properties] at hprops
  subst htype hitems hprops
  simp [fromRequestBody, resolveRequestBody, fromBodyJsonContent, hmp, hjson, hschema,
    SchemaObj.type, SchemaObj.items, SchemaObj.properties, SchemaObj.required,
    mapExcept, bind, Except.bind, pure, Except.pure]

/-- A request body whose JSON schema is typed array with no items and
no properties. -/
def bodyArrNoItems : RequestBodyObj :=
  ⟨[("application/json", ⟨.obj (.mk (some .array) [] none none none none none none)⟩)]⟩

/-- Witness for C10 at the concrete items-less array body: the empty
field list, no error. -/
theorem claim_C10_witness :
    fromRequestBody d0 (some (.obj bodyArrNoItems)) = .ok [] :=
  claim_C10 d0 bodyArrNoItems ⟨.obj (.mk (some .array) [] none none none none none none)⟩
    (.mk (some .array) [] none none none none none none) rfl rfl rfl rfl rfl rfl

/-- The field the claim predicts for one declared body property `k`
whose schema compiled to `fp`: typed via the table, required from
membership in the required-name list, body routing keyed by the
property name with parse-as-JSON extraction for structured-text fields
and verbatim extraction otherwise. -/
def expectedBodyField (req? : Option (List String)) (k : String) (fp : FromSchemaNodeProperty) : Field := {
  displayName := startCase k,
  name := k,
  type := fp.type,
  default := fp.default,
  description := fp.description,
  options := fp.options,
  required := (match req? with | none => false | some l => l.contains k),
  routing := some (if fp.type = .json then
    Routing.request_bodyKey k "=\x7b\x7b JSON.parse($value) \x7d\x7d"
  else
    Routing.request_bodyKey k "=\x7b\x7b $value \x7d\x7d"),
  typeOptionsIsFilePath := false,
  displayOptions := none }

/-- Elementwise description of the JSON-body property loop: when every
property schema compiles, the loop emits exactly the expected field per
property, in declaration order. -/
lemma mapExcept_bodyPropField (d : Doc) (req? : Option (List String)) :
    ∀ (props : List (String × RefOr SchemaObj)) (fps : List FromSchemaNodeProperty),
      mapExcept (fun kp => fromSchema d kp.2) props = .ok fps →
      mapExcept (bodyPropField d req?) props =
        .ok (List.zipWith (fun kp fp => expectedBodyField req? kp.1 fp) props fps) := by
  intro props
  induction props with
  | nil =>
    intro fps h
    simp [mapExcept] at h
    subst h
    simp [mapExcept]
  | cons kp rest ih =>
    intro fps h
    cases hfs : fromSchema d kp.2 with
    | error e => simp [mapExcept, hfs, bind, Except.bind] at h
    | ok fp =>
      cases hrest : mapExcept (fun kp => fromSchema d kp.2) rest with
      | error e => simp [mapExcept, hfs, hrest, bind, Except.bind] at h
      | ok fps' =>
        simp [mapExcept, hfs, hrest, bind, Except.bind, pure, Except.pure] at h
        subst h
        simp [mapExcept, bodyPropField, fromSchemaProperty, hfs, ih fps' hrest,
          expectedBodyField, bind, Except.bind, pure, Except.pure]

/-- C6: for a request body without multipart content whose first
application/json-family schema is object-typed or declares properties
(and is not array-typed), `fromRequestBody` emits one field per
declared property in declaration order: each typed via the
type-mapping table, required exactly when the property name is a member
of the schema's required-name list, and routed by a body directive
keyed by the property name with parse-as-JSON extraction for
structured-text fields and verbatim extraction otherwise. -/
theorem claim_C6 (d : Doc) (b : RequestBodyObj) (m : MediaTypeObj) (schema : SchemaObj)
    (fps : List FromSchemaNodeProperty)
    (hmp : b.content.find? (fun kv => kv.1 == "multipart/form-data") = none)
    (hjson : findKey b.content = some m)
    (hschema : resolveSchema d m.schema = .ok schema)
    (hobj : schema.type = some .object ∨ schema.properties.isSome)
    (hnarr : schema.type ≠ some .array)
    (hcompile : mapExcept (fun kp => fromSchema d kp.2) (schema.properties.getD []) = .ok fps) :
    fromRequestBody d (some (.obj b)) =
      .ok (List.zipWith (fun kp fp => expectedBodyField schema.required kp.1 fp)
        (schema.properties.getD []) fps) := by
  obtain ⟨t, en, it, props, req, desc, ex, fmt⟩ := schema
  simp only [SchemaObj.type] at hnarr
  simp only [SchemaObj.type, SchemaObj.properties] at hobj
  simp only [SchemaObj.properties, SchemaObj.required] at hcompile
  have hloop := mapExcept_bodyPropField d req (props.getD []) fps hcompile
  rcases hobj with ht | hps
  · subst ht
    simp [fromRequestBody, resolveRequestBody, fromBodyJsonContent, hmp, hjson, hschema,
      SchemaObj.type, SchemaObj.items, SchemaObj.properties, SchemaObj.required,
      hloop, bind, Except.bind, pure, Except.pure]
  · obtain ⟨ps, hps⟩ := Option.isSome_iff_exists.mp hps
    subst hps
    simp only [Option.getD_some] at hloop
    rcases t with _ | t
    · simp [fromRequestBody, resolveRequestBody, fromBodyJsonContent, hmp, hjson, hschema,
        SchemaObj.type, SchemaObj.items, SchemaObj.properties, SchemaObj.required,
        hloop, bind, Except.bind, pure, Except.pure]
    · cases t <;>
        first
        | exact absurd rfl hnarr
        | simp [fromRequestBody, resolveRequestBody, fromBodyJsonContent, hmp, hjson, hschema,
            SchemaObj.type, SchemaObj.items, SchemaObj.properties, SchemaObj.required,
            hloop, bind, Except.bind, pure, Except.pure]

/-- Scenario A request body: JSON object with a required string
property "name" and an optional boolean property "active". -/
def bodyObjW : RequestBodyObj :=
  ⟨[("application/json", ⟨.obj (.mk (some .object) [] none
    (some [("name", .obj sStr), ("active", .obj sBool)]) (some ["name"]) none none none)⟩)]⟩

/-- Witness for C6 at the Scenario A body: field "name" required with
verbatim body routing keyed "name", field "active" optional with
default true and verbatim body routing keyed "active". -/
theorem claim_C6_witness :
    fromRequestBody d0 (some (.obj bodyObjW)) = .ok [
      { displayName := "Name", name := "name", type := .string,
        default := some (.vStr ""), description := none, options := none,
        required := true,
        routing := some (.request_bodyKey "name" "=\x7b\x7b $value \x7d\x7d"),
        typeOptionsIsFilePath := false, displayOptions := none },
      { displayName := "Active", name := "active", type := .boolean,
        default := some (.vBool true), description := none, options := none,
        required := false,
        routing := some (.request_bodyKey "active" "=\x7b\x7b $value \x7d\x7d"),
        typeOptionsIsFilePath := false, displayOptions := none }] :=
  claim_C6 d0 bodyObjW ⟨.obj (.mk (some .object) [] none
      (some [("name", .obj sStr), ("active", .obj sBool)]) (some ["name"]) none none none)⟩
    (.mk (some .object) [] none
      (some [("name", .obj sStr), ("active", .obj sBool)]) (some ["name"]) none none none)
    [⟨.string, some (.vStr ""), none, none⟩, ⟨.boolean, some (.vBool true), none, none⟩]
    rfl rfl rfl (Or.inl rfl) (by decide) rfl

/-- The Scenario B request body: JSON schema typed array whose items
are strings, carrying no required marker. -/
def bodyArrStrW : RequestBodyObj :=
  ⟨[("application/json", ⟨.obj (.mk (some .array) [] (some (.obj sStr)) none none none none none)⟩)]⟩

/-- C7 counterexample: for an array-of-strings body the single "body"
field is typed via the table from the ITEM schema, so its kind is
string (not structured-text json) and its default is "" (not "[]"),
refuting the claim's parenthetical prediction for an array of
strings. -/
theorem claim_C7_cex :
    fromRequestBody d0 (some (.obj bodyArrStrW)) = .ok [{
      displayName := "Body", name := "body", type := .string,
      default := some (.vStr ""), description := none, options := none,
      required := false,
      routing := some (.request_bodyWhole "=\x7b\x7b JSON.parse($value) \x7d\x7d"),
      typeOptionsIsFilePath := false, displayOptions := none }]
    ∧ PropType.string ≠ PropType.json
    ∧ Value.vStr "" ≠ Value.vStr "[]" :=
  ⟨rfl, fun h => PropType.noConfusion h, fun h => by
    injection h with h2
    exact absurd h2 (by decide)⟩

/-- C7 (amended): for a selected JSON content schema typed array with
an items entry (and no declared properties), `fromRequestBody` emits a
single field named "body" typed via the type-mapping table from the
array's item schema — so for an array of strings: string kind with
default "" — whose required flag is set exactly when the array schema
carries a required marker, with a body routing directive targeting the
whole body with parse-as-JSON extraction. -/
theorem claim_C7 (d : Doc) (b : RequestBodyObj) (m : MediaTypeObj) (schema : SchemaObj)
    (items : RefOr SchemaObj) (innerSchema : SchemaObj) (fp : FromSchemaNodeProperty)
    (hmp : b.content.find? (fun kv => kv.1 == "multipart/form-data") = none)
    (hjson : findKey b.content = some m)
    (hschema : resolveSchema d m.schema = .ok schema)
    (htype : schema.type = some .array)
    (hitems : schema.items = some items)
    (hprops : schema.properties = none)
    (hinner : resolveSchema d items = .ok innerSchema)
    (hfs : fromSchema d (.obj innerSchema) = .ok fp) :
    fromRequestBody d (some (.obj b)) = .ok [{
      displayName := startCase "body",
      name := "body",
      type := fp.type,
      default := fp.default,
      description := fp.description,
      options := fp.options,
      required := schema.required.isSome,
      routing := some (.request_bodyWhole "=\x7b\x7b JSON.parse($value) \x7d\x7d"),
      typeOptionsIsFilePath := false,
      displayOptions := none }] := by
  obtain ⟨t, en, it, props, req, desc, ex, fmt⟩ := schema
  simp only [SchemaObj.type] at htype
  simp only [SchemaObj.items] at hitems
  simp only [SchemaObj.properties] at hprops
  subst htype hitems hprops
  simp [fromRequestBody, resolveRequestBody, fromBodyJsonContent, fromSchemaProperty,
    hmp, hjson, hschema, hinner, hfs,
    SchemaObj.type, SchemaObj.items, SchemaObj.properties, SchemaObj.required,
    mapExcept, bind, Except.bind, pure, Except.pure]

/-- Witness for C7 at the Scenario B body: the item schema is a string,
so the "body" field has string kind, default "", no required marker,
and the whole-body parse-as-JSON directive. -/
theorem claim_C7_witness :
    fromRequestBody d0 (some (.obj bodyArrStrW)) = .ok [{
      displayName := "Body", name := "body", type := .string,
      default := some (.vStr ""), description := none, options := none,
      required := false,
      routing := some (.request_bodyWhole "=\x7b\x7b JSON.parse($value) \x7d\x7d"),
      typeOptionsIsFilePath := false, displayOptions := none }] :=
  claim_C7 d0 bodyArrStrW
    ⟨.obj (.mk (some .array) [] (some (.obj sStr)) none none none none none)⟩
    (.mk (some .array) [] (some (.obj sStr)) none none none none none)
    (.obj sStr) sStr ⟨.string, some (.vStr ""), none, none⟩
    rfl rfl rfl rfl rfl rfl rfl rfl

/-- The field the claim predicts for one multipart property `k` whose
resolved schema is `rp` and compiled to `fp`: a binary-format property
becomes a string field flagged as a file path with body routing using
the binary-payload extraction expression, every other property is
emitted via the standard table with verbatim body routing. -/
def expectedMultipartField (req? : Option (List String)) (k : String) (rp : SchemaObj)
    (fp : FromSchemaNodeProperty) : Field :=
  if rp.format == some "binary" then {
    displayName := startCase k,
    name := k,
    type := .string,
    default := fp.default,
    description := fp.description,
    options := fp.options,
    required := (match req? with | none => false | some l => l.contains k),
    routing := some (.request_bodyKey k "=\x7b\x7b $binary[$value] \x7d\x7d"),
    typeOptionsIsFilePath := true,
    displayOptions := none }
  else {
    displayName := startCase k,
    name := k,
    type := fp.type,
    default := fp.default,
    description := fp.description,
    options := fp.options,
    required := (match req? with | none => false | some l => l.contains k),
    routing := some (.request_bodyKey k "=\x7b\x7b $value \x7d\x7d"),
    typeOptionsIsFilePath := false,
    displayOptions := none }

/-- Resolution and table compilation of one multipart property, as the
loop body performs it before branching on the binary format. -/
def resolveAndCompileProp (d : Doc) (kp : String × RefOr SchemaObj) :
    Except Err (SchemaObj × FromSchemaNodeProperty) := do
  let rp ← resolveSchema d kp.2
  let fp ← fromSchema d (.obj rp)
  pure (rp, fp)

/-- Elementwise description of the multipart property loop: when every
property resolves and compiles, the loop emits exactly the expected
multipart field per property, in declaration order. -/
lemma mapExcept_multipartPropField (d : Doc) (req? : Option (List String)) :
    ∀ (props : List (String × RefOr SchemaObj)) (rps : List (SchemaObj × FromSchemaNodeProperty)),
      mapExcept (resolveAndCompileProp d) props = .ok rps →
      mapExcept (multipartPropField d req?) props =
        .ok (List.zipWith (fun kp rpfp => expectedMultipartField req? kp.1 rpfp.1 rpfp.2) props rps) := by
  intro props
  induction props with
  | nil =>
    intro rps h
    simp [mapExcept, pure, Except.pure] at h
    subst h
    simp [mapExcept]
  | cons kp rest ih =>
    intro rps h
    cases hres : resolveSchema d kp.2 with
    | error e =>
      simp [mapExcept, resolveAndCompileProp, hres, bind, Except.bind] at h
    | ok rp =>
      cases hfs : fromSchema d (.obj rp) with
      | error e =>
        simp [mapExcept, resolveAndCompileProp, hres, hfs, bind, Except.bind] at h
      | ok fp =>
        cases hrest : mapExcept (resolveAndCompileProp d) rest with
        | error e =>
          simp [mapExcept, resolveAndCompileProp, hres, hfs, hrest,
            bind, Except.bind, pure, Except.pure] at h
        | ok rps' =>
          simp [mapExcept, resolveAndCompileProp, hres, hfs, hrest,
            bind, Except.bind, pure, Except.pure] at h
          subst h
          cases hb : rp.format == some "binary" with
          | true =>
            have hb2 : rp.format = some "binary" := by simpa using hb
            simp [mapExcept, multipartPropField, fromSchemaProperty, hres, hfs, hb, hb2,
              ih rps' hrest, expectedMultipartField, bind, Except.bind, pure, Except.pure]
          | false =>
            have hb2 : ¬ rp.format = some "binary" := by simpa using hb
            simp [mapExcept, multipartPropField, fromSchemaProperty, hres, hfs, hb, hb2,
              ih rps' hrest, expectedMultipartField, bind, Except.bind, pure, Except.pure]

/-- C8: for a request body with multipart/form-data content, the
multipart branch fails with `MultipartSchemaMissingProperties` when the
resolved schema declares no properties; otherwise it emits one field
per declared property: a binary-format property becomes a file-path
string field with body routing using the binary-payload extraction
expression keyed by the field's own value, and every other property is
emitted via the standard type-mapping table with verbatim body routing
keyed by the property name. -/
theorem claim_C8 (d : Doc) (b : RequestBodyObj) (kv : String × MediaTypeObj)
    (hmp : b.content.find? (fun kv => kv.1 == "multipart/form-data") = some kv) :
    (∀ schema, resolveSchema d kv.2.schema = .ok schema → schema.properties = none →
      fromRequestBody d (some (.obj b)) = .error .MultipartSchemaMissingProperties) ∧
    (∀ schema props rps, resolveSchema d kv.2.schema = .ok schema →
      schema.properties = some props →
      mapExcept (resolveAndCompileProp d) props = .ok rps →
      fromRequestBody d (some (.obj b)) =
        .ok (List.zipWith (fun kp rpfp => expectedMultipartField schema.required kp.1 rpfp.1 rpfp.2)
          props rps)) := by
  constructor
  · intro schema hschema hprops
    simp [fromRequestBody, resolveRequestBody, fromMultipartFormData, hmp, hschema, hprops,
      bind, Except.bind, pure, Except.pure]
  · intro schema props rps hschema hprops hcompile
    have hloop := mapExcept_multipartPropField d schema.required props rps hcompile
    simp [fromRequestBody, resolveRequestBody, fromMultipartFormData, hmp, hschema, hprops,
      hloop, bind, Except.bind, pure, Except.pure]

/-- A string schema marked with binary format. -/
def sBinary : SchemaObj := .mk (some .string) [] none none none none none (some "binary")

/-- The Scenario C multipart body: a binary property "file" and a plain
string property "note". -/
def bodyMultipartW : RequestBodyObj :=
  ⟨[("multipart/form-data", ⟨.obj (.mk (some .object) [] none
    (some [("file", .obj sBinary), ("note", .obj sStr)]) none none none none)⟩)]⟩

/-- Witness for C8 at the Scenario C body: "file" becomes a file-path
string field with binary-payload routing keyed "file", "note" is
emitted via the standard table with verbatim routing keyed "note". -/
theorem claim_C8_witness :
    fromRequestBody d0 (some (.obj bodyMultipartW)) = .ok [
      { displayName := "File", name := "file", type := .string,
        default := some (.vStr ""), description := none, options := none,
        required := false,
        routing := some (.request_bodyKey "file" "=\x7b\x7b $binary[$value] \x7d\x7d"),
        typeOptionsIsFilePath := true, displayOptions := none },
      { displayName := "Note", name := "note", type := .string,
        default := some (.vStr ""), description := none, options := none,
        required := false,
        routing := some (.request_bodyKey "note" "=\x7b\x7b $value \x7d\x7d"),
        typeOptionsIsFilePath := false, displayOptions := none }] :=
  (claim_C8 d0 bodyMultipartW
      ("multipart/form-data", ⟨.obj (.mk (some .object) [] none
        (some [("file", .obj sBinary), ("note", .obj sStr)]) none none none none)⟩) rfl).2
    (.mk (some .object) [] none
      (some [("file", .obj sBinary), ("note", .obj sStr)]) none none none none)
    [("file", .obj sBinary), ("note", .obj sStr)]
    [(sBinary, ⟨.string, some (.vStr ""), none, none⟩),
     (sStr, ⟨.string, some (.vStr ""), none, none⟩)]
    rfl rfl rfl

/-- A field named "session" is never moved past by the comparator, so
insertion places it at the front. -/
lemma insertCmp_session (x : Field) (hx : x.name == "session") (l : List Field) :
    insertCmp sessionFirst x l = x :: l := by
  cases l with
  | nil => rfl
  | cons y ys => simp [insertCmp, sessionFirst, hx]

/-- A field not named "session" moves past every "session"-named field
and stops at the first other field, preserving the rest. -/
lemma insertCmp_nonsession (x : Field) (hx : ¬ x.name == "session") :
    ∀ (S N : List Field), (∀ y ∈ S, y.name == "session") →
      (∀ z ∈ N, ¬ z.name == "session") →
      insertCmp sessionFirst x (S ++ N) = S ++ x :: N := by
  intro S
  induction S with
  | nil =>
    intro N _ hN
    cases N with
    | nil => rfl
    | cons z zs =>
      have hz : ¬ z.name == "session" := hN z (List.mem_cons_self z zs)
      simp [insertCmp, sessionFirst, hx, hz]
  | cons y S' ih =>
    intro N hS hN
    have hy : y.name == "session" := hS y (List.mem_cons_self y S')
    have hrest := ih N (fun w hw => hS w (List.mem_cons_of_mem y hw)) hN
    have hcmp : sessionFirst x y > 0 := by simp [sessionFirst, hx, hy]
    rw [List.cons_append, insertCmp, if_pos hcmp, hrest, List.cons_append]

/-- The stable sort by `sessionFirst` is exactly the stable partition
that floats "session"-named fields to the front. -/
lemma sortCmp_sessionFirst_eq (l : List Field) :
    sortCmp sessionFirst l =
      l.filter (fun f => f.name == "session") ++ l.filter (fun f => !(f.name == "session")) := by
  induction l with
  | nil => rfl
  | cons x xs ih =>
    have hS : ∀ y ∈ xs.filter (fun f => f.name == "session"), y.name == "session" :=
      fun y hy => (List.mem_filter.mp hy).2
    have hN : ∀ z ∈ xs.filter (fun f => !(f.name == "session")), ¬ z.name == "session" := by
      intro z hz
      have := (List.mem_filter.mp hz).2
      simpa using this
    cases hx : x.name == "session" with
    | true =>
      simp only [sortCmp, ih]
      rw [insertCmp_session x hx]
      simp [List.filter, hx]
    | false =>
      simp only [sortCmp, ih]
      rw [insertCmp_nonsession x (by simp [hx]) _ _ hS hN]
      simp [List.filter, hx]

/-- C9: `parseFields` compiles the parameter fields followed by the body
fields (insertion order), attaches the display grouping, and outputs
the stable partition that places every field named "session" first
while preserving the relative order of all other fields; in particular,
whenever some compiled field is named "session", the first output field
is named "session". -/
theorem claim_C9 (d : Doc) (r o : String) (op : OperationObj) (pf bf : List Field)
    (base : List Field)
    (hp : fromParameters d op.parameters = .ok pf)
    (hb : fromRequestBody d op.requestBody = .ok bf)
    (hbase : base = (pf ++ bf).map (fun f => { f with displayOptions := some (r, o) })) :
    parseFields d r o op =
      .ok (base.filter (fun f => f.name == "session") ++
           base.filter (fun f => !(f.name == "session"))) ∧
    (∀ f ∈ base, f.name = "session" →
      ∃ g, (base.filter (fun f => f.name == "session") ++
            base.filter (fun f => !(f.name == "session"))).head? = some g ∧
        g.name = "session") := by
  constructor
  · have : parseFields d r o op = .ok (sortCmp sessionFirst base) := by
      simp [parseFields, hp, hb, hbase, bind, Except.bind, pure, Except.pure]
    rw [this, sortCmp_sessionFirst_eq]
  · intro f hf hname
    cases hfil : base.filter (fun f => f.name == "session") with
    | nil =>
      exfalso
      have : f ∈ base.filter (fun f => f.name == "session") :=
        List.mem_filter.mpr ⟨hf, by simp [hname]⟩
      rw [hfil] at this
      exact List.not_mem_nil f this
    | cons g gs =>
      refine ⟨g, by simp [hfil], ?_⟩
      have : g ∈ base.filter (fun f => f.name == "session") := by
        rw [hfil]; exact List.mem_cons_self g gs
      have := (List.mem_filter.mp this).2
      simpa using this

/-- A query parameter named "alpha". -/
def pAlphaW : ParameterObj := ⟨"alpha", "query", none, none, none, .obj sStr⟩

/-- A query parameter named "session", declared after "alpha". -/
def pSessionW : ParameterObj := ⟨"session", "query", none, none, none, .obj sStr⟩

/-- An operation declaring the parameters ["alpha", "session"] and no
request body. -/
def opSessionW : OperationObj := ⟨some [.obj pAlphaW, .obj pSessionW], none⟩

/-- Witness for C9: the "session" field, declared second, is emitted
first; the other field keeps its place. -/
theorem claim_C9_witness :
    parseFields d0 "pet" "List" opSessionW = .ok [
      { displayName := "Session", name := "session", type := .string,
        default := some (.vStr ""), description := none, options := none,
        required := false,
        routing := some (.request_qs "session" "=\x7b\x7b $value \x7d\x7d"),
        typeOptionsIsFilePath := false, displayOptions := some ("pet", "List") },
      { displayName := "Alpha", name := "alpha", type := .string,
        default := some (.vStr ""), description := none, options := none,
        required := false,
        routing := some (.request_qs "alpha" "=\x7b\x7b $value \x7d\x7d"),
        typeOptionsIsFilePath := false, displayOptions := some ("pet", "List") }] :=
  (claim_C9 d0 "pet" "List" opSessionW
    [{ displayName := "Alpha", name := "alpha", type := .string,
       default := some (.vStr ""), description := none, options := none,
       required := false,
       routing := some (.request_qs "alpha" "=\x7b\x7b $value \x7d\x7d"),
       typeOptionsIsFilePath := false, displayOptions := none },
     { displayName := "Session", name := "session", type := .string,
       default := some (.vStr ""), description := none, options := none,
       required := false,
       routing := some (.request_qs "session" "=\x7b\x7b $value \x7d\x7d"),
       typeOptionsIsFilePath := false, displayOptions := none }]
    []
    [{ displayName := "Alpha", name := "alpha", type := .string,
       default := some (.vStr ""), description := none, options := none,
       required := false,
       routing := some (.request_qs "alpha" "=\x7b\x7b $value \x7d\x7d"),
       typeOptionsIsFilePath := false, displayOptions := some ("pet", "List") },
     { displayName := "Session", name := "session", type := .string,
       default := some (.vStr ""), description := none, options := none,
       required := false,
       routing := some (.request_qs "session" "=\x7b\x7b $value \x7d\x7d"),
       typeOptionsIsFilePath := false, displayOptions := some ("pet", "List") }]
    rfl rfl rfl).1

end N8N
